import Mathlib

/-!
Verification of the statistics backfill/derivation core of the `ha_enocoo`
Home Assistant integration.

The development shallowly embeds the functions of
`custom_components/ha_enocoo/_statistics.py` and
`custom_components/ha_enocoo/_util.py` that the claims are about:

* timestamps and durations are modelled as integers (seconds); calendar
  dates as integers (days), with `dateOf` as floor division by 86400;
* numeric reading values are modelled as rationals (`ℚ`);
* Python exceptions are modelled with `Except`;
* Python's `round(x, 3)` (round-half-to-even to three decimals) is modelled
  exactly on rationals by `round3`.
-/

namespace HaEnocoo

/-- A named numeric quantity with a unit string (mirrors `oocone.model.Quantity`). -/
structure Quantity where
  value : ℚ
  unit : String
deriving DecidableEq

/-- A consumption reading over a time interval
(mirrors `oocone.model.Consumption`): interval start (seconds), duration
(seconds), value and unit. -/
structure Consumption where
  start : Int
  period : Int
  value : ℚ
  unit : String
deriving DecidableEq

/-- A photovoltaic summary over a time interval
(mirrors `oocone.model.PhotovoltaicSummary`). `own_consumption` and
`self_sufficiency` are optional percentage quantities. -/
structure PhotovoltaicSummary where
  start : Int
  period : Int
  consumption : Quantity
  generation : Quantity
  own_consumption : Option Quantity
  self_sufficiency : Option Quantity
deriving DecidableEq

/-- A statistic point handed to the recorder (mirrors
`homeassistant...models.StatisticData` as used in `_statistics.py`):
hour start, state (may be null in the derived path), running sum, and the
optional `min`/`max`/`mean` fields touched by `_derive_statistic`. -/
structure StatisticData where
  start : Int
  state : Option ℚ
  sum : ℚ
  min : Option ℚ
  max : Option ℚ
  mean : Option ℚ
deriving DecidableEq

/-- Python exceptions raised by the embedded code. -/
inductive PyError where
  | stopIteration : String → PyError
  | valueError : String → PyError
  | assertionError : String → PyError
deriving DecidableEq

/-- One hour, in seconds. -/
def oneHour : Int := 3600

/-- Sum of the `period` durations of a list of readings
(`sum((r.period for r in hourly_reads), start=dt.timedelta(0))`). -/
def periodSum (hourly_reads : List Consumption) : Int :=
  (hourly_reads.map Consumption.period).sum

/-- Start timestamp of the first reading of a group (`hourly_reads[0].start`;
the Python code only evaluates this on the nonempty groups that `groupby`
produces, so the `[]` case is arbitrary). -/
def groupStart (hourly_reads : List Consumption) : Int :=
  match hourly_reads with
  | [] => 0
  | r :: _ => r.start

/-- Embeds `StatisticsInserter._reading_is_usable`: a group of readings is
usable iff its first start is strictly after `last_stats_time` (when that is
present) and its periods sum to exactly one hour. -/
def reading_is_usable (hourly_reads : List Consumption)
    (last_stats_time : Option Int) : Bool :=
  match hourly_reads with
  | [] => false
  | r :: _ =>
    match last_stats_time with
    | some t =>
        if r.start ≤ t then false
        else decide (periodSum hourly_reads = oneHour)
    | none => decide (periodSum hourly_reads = oneHour)

/-- Embeds the hour-group loop shared by
`StatisticsInserter._insert_individual_consumption_statistics`,
`_insert_individual_photovoltaic_statistics` and
`_insert_quarter_photovoltaic_statistics`: for each hour-group in order, if
the group is usable, its value sum becomes the point's state, the running
sum is increased by it, and one `StatisticData` is appended; otherwise the
group is skipped.  Returns the emitted points and the final running sum. -/
def insertHourlyStatistics (groups : List (List Consumption))
    (last_stats_time : Option Int) (running_sum : ℚ) :
    List StatisticData × ℚ :=
  match groups with
  | [] => ([], running_sum)
  | hourly_reads :: rest =>
    if reading_is_usable hourly_reads last_stats_time then
      let consumption : ℚ := (hourly_reads.map Consumption.value).sum
      let consumption_sum := running_sum + consumption
      let tail := insertHourlyStatistics rest last_stats_time consumption_sum
      (⟨groupStart hourly_reads, some consumption, consumption_sum,
          none, none, none⟩ :: tail.1,
        tail.2)
    else
      insertHourlyStatistics rest last_stats_time running_sum

/-- A base statistic row as returned by `statistics_during_period` and
consumed by `StatisticsInserter._derive_statistic`: `state` may be null and
`min`/`max`/`mean` may be absent. -/
structure BaseStat where
  start : Int
  state : Option ℚ
  sum : ℚ
  min : Option ℚ
  max : Option ℚ
  mean : Option ℚ
deriving DecidableEq

/-- Embeds the per-point loop of `StatisticsInserter._derive_statistic`:
a null base state is propagated with the running sum unchanged, otherwise
the transformed state is added to the running sum; `min`/`max`/`mean` are
transformed pointwise when present. -/
def derive_statistic (base_stats : List BaseStat)
    (transform_datapoint : ℚ → ℚ) (statistic_sum : ℚ) : List StatisticData :=
  match base_stats with
  | [] => []
  | base_stat :: rest =>
    match base_stat.state with
    | none =>
      ⟨base_stat.start, none, statistic_sum,
          base_stat.min.map transform_datapoint,
          base_stat.max.map transform_datapoint,
          base_stat.mean.map transform_datapoint⟩ ::
        derive_statistic rest transform_datapoint statistic_sum
    | some s =>
      let new_state := transform_datapoint s
      ⟨base_stat.start, some new_state, statistic_sum + new_state,
          base_stat.min.map transform_datapoint,
          base_stat.max.map transform_datapoint,
          base_stat.mean.map transform_datapoint⟩ ::
        derive_statistic rest transform_datapoint (statistic_sum + new_state)

/-- Rounds a rational to the nearest integer, ties to even (the rounding mode
of Python's built-in `round`). -/
def roundHalfEven (q : ℚ) : Int :=
  let f : Int := ⌊q⌋
  if q - (f : ℚ) < 1 / 2 then f
  else if 1 / 2 < q - (f : ℚ) then f + 1
  else if f % 2 = 0 then f else f + 1

/-- Python's `round(x, 3)`, modelled exactly on rationals. -/
def round3 (q : ℚ) : ℚ :=
  (roundHalfEven (q * 1000) : ℚ) / 1000

/-- Embeds `IndividualSupplyFromPhotovoltaic.calculate_datapoint`:
`value = round(consumption * ratio, 3)` with ratio `self_sufficiency/100`
when present (asserting the `%` unit) and `0` otherwise. -/
def supplyFromPv_calculate_datapoint (start period : Int)
    (electricity_consumption : Consumption) (pv : PhotovoltaicSummary) :
    Except PyError Consumption :=
  match pv.self_sufficiency with
  | none =>
    Except.ok ⟨start, period, round3 (electricity_consumption.value * 0),
      electricity_consumption.unit⟩
  | some q =>
    if q.unit = "%" then
      Except.ok ⟨start, period,
        round3 (electricity_consumption.value * (q.value / 100)),
        electricity_consumption.unit⟩
    else
      Except.error (PyError.assertionError "own_consumption must be measured in %")

/-- Embeds `IndividualSupplyFromGrid.calculate_datapoint`:
`value = round(consumption * (1 - ratio), 3)`. -/
def supplyFromGrid_calculate_datapoint (start period : Int)
    (electricity_consumption : Consumption) (pv : PhotovoltaicSummary) :
    Except PyError Consumption :=
  match pv.self_sufficiency with
  | none =>
    Except.ok ⟨start, period, round3 (electricity_consumption.value * (1 - 0)),
      electricity_consumption.unit⟩
  | some q =>
    if q.unit = "%" then
      Except.ok ⟨start, period,
        round3 (electricity_consumption.value * (1 - q.value / 100)),
        electricity_consumption.unit⟩
    else
      Except.error (PyError.assertionError "own_consumption must be measured in %")

/-- Embeds `_util.zip_measurements` as called with its default
`strict=False`: pairs the two series positionally, raising `ValueError` on a
start or period mismatch, and stopping at the end of the shorter series. -/
def zip_measurements :
    List Consumption → List PhotovoltaicSummary →
      Except PyError (List (Int × Int × Consumption × PhotovoltaicSummary))
  | m1 :: t1, m2 :: t2 =>
    if m1.start ≠ m2.start then
      Except.error (PyError.valueError "Start dates do not match.")
    else if m1.period ≠ m2.period then
      Except.error (PyError.valueError "Periods do not match.")
    else
      (zip_measurements t1 t2).map (fun rest => (m1.start, m1.period, m1, m2) :: rest)
  | _, _ => Except.ok []

/-- Embeds `_util.all_the_same`: `next` on an empty iterator raises
`StopIteration`; differing values raise `ValueError`; otherwise the common
value is returned. -/
def all_the_same {α : Type} [DecidableEq α] (things : List α) : Except PyError α :=
  match things with
  | [] => Except.error (PyError.stopIteration "")
  | first :: rest =>
    if rest.any (fun item => item ≠ first) then
      Except.error (PyError.valueError "Expected identical values, but found different ones.")
    else
      Except.ok first

/-- `statistics.mean`; the embedded callers only apply it to nonempty lists. -/
def listMean (xs : List ℚ) : ℚ := xs.sum / xs.length

/-- Embeds the construction of `aggregate_pv` in the `except ValueError`
fallback of `IndividualCalculatedMetric.get_daily_datapoints`: sums the
consumption and generation quantities, averages `own_consumption` and
`self_sufficiency` treating absent values as 100, and computes each unit
with `all_the_same` (over the present values only for the two optional
fields), propagating any exception those calls raise. -/
def aggregate_pv (aggregate_start aggregate_period : Int)
    (pv_stats : List PhotovoltaicSummary) : Except PyError PhotovoltaicSummary :=
  match all_the_same (pv_stats.map (fun pv => pv.consumption.unit)) with
  | Except.error e => Except.error e
  | Except.ok consumption_unit =>
    match all_the_same (pv_stats.map (fun pv => pv.generation.unit)) with
    | Except.error e => Except.error e
    | Except.ok generation_unit =>
      match all_the_same
          ((pv_stats.filterMap PhotovoltaicSummary.own_consumption).map Quantity.unit) with
      | Except.error e => Except.error e
      | Except.ok own_consumption_unit =>
        match all_the_same
            ((pv_stats.filterMap PhotovoltaicSummary.self_sufficiency).map Quantity.unit) with
        | Except.error e => Except.error e
        | Except.ok self_sufficiency_unit =>
          Except.ok
            ⟨aggregate_start, aggregate_period,
              ⟨(pv_stats.map (fun pv => pv.consumption.value)).sum, consumption_unit⟩,
              ⟨(pv_stats.map (fun pv => pv.generation.value)).sum, generation_unit⟩,
              some ⟨listMean (pv_stats.map (fun pv =>
                  match pv.own_consumption with
                  | some q => q.value
                  | none => 100)), own_consumption_unit⟩,
              some ⟨listMean (pv_stats.map (fun pv =>
                  match pv.self_sufficiency with
                  | some q => q.value
                  | none => 100)), self_sufficiency_unit⟩⟩

/-- The predicate `key(a[i])` seen by the bisection loop, as a function of
the index; out-of-range indices (never probed by the loop) give `false`. -/
def bisect_key {α : Type} (a : List α) (key : α → Bool) (i : Nat) : Bool :=
  match a[i]? with
  | some x => key x
  | none => false

/-- The `while lo < hi` loop of `_util.bisect`. -/
def bisectLoop {α : Type} (a : List α) (key : α → Bool) (lo hi : Nat) : Nat :=
  if h : lo < hi then
    if bisect_key a key ((lo + hi) / 2) then
      bisectLoop a key lo ((lo + hi) / 2)
    else
      bisectLoop a key ((lo + hi) / 2 + 1) hi
  else lo
termination_by hi - lo
decreasing_by
  · omega
  · omega

/-- Embeds `_util.bisect`: binary search for the first index whose element
satisfies `key`, raising `StopIteration` when the loop terminates at
`len(a)`. -/
def bisect {α : Type} (a : List α) (key : α → Bool) : Except PyError Nat :=
  let lo := bisectLoop a key 0 a.length
  if lo = a.length then
    Except.error (PyError.stopIteration "Did not find an element x where key of x is True.")
  else
    Except.ok lo

/-- Embeds the freshness gate of `StatisticsInserter._find_last_stats`:
`expecting_newer_data` is the negation of
`last_stats_end_time and (now - last_stats_end_time) <= timedelta(minutes=75)`. -/
def expecting_newer_data (last_stats_end_time : Option Int) (now : Int) : Bool :=
  let not_expecting :=
    match last_stats_end_time with
    | some t => decide (now - t ≤ 75 * 60)
    | none => false
  !not_expecting

/-- Calendar date (day number) of a timestamp in seconds, floor division as
in Python's `datetime.date()` for a fixed timezone. -/
def dateOf (t : Int) : Int := Int.fdiv t 86400

/-- The `while date <= newest: yield date; date += 1` generator pattern of
both date planners, as the inclusive list of day numbers. -/
def date_range (first newest : Int) : List Int :=
  (List.range (newest + 1 - first).toNat).map (fun i => first + i)

/-- Embeds the date generator of
`StatisticsInserter._dates_to_insert_individual_statistics` (the
`expecting_newer_data` branch): start at `area.data_available_since` when no
statistic exists yet, else at the date of the stored point's start
timestamp; end at `min(now.date(), data_available_until + 1 day)`. -/
def dates_to_insert_individual (last_stats_time : Option Int) (now : Int)
    (data_available_since data_available_until : Int) : List Int :=
  let date :=
    match last_stats_time with
    | none => data_available_since
    | some t => dateOf t
  let newest_date_online := min (dateOf now) (data_available_until + 1)
  date_range date newest_date_online

/-- Embeds the date generator of
`StatisticsInserter._dates_to_insert_quarter_pv_statistics` for the case
where a previous point exists: start at the date of the stored point's start
timestamp, end at today. -/
def dates_to_insert_quarter_pv (last_stats_time : Int) (now : Int) : List Int :=
  date_range (dateOf last_stats_time) (dateOf now)

/-! ### Helper lemmas about the hourly aggregator -/

/-- Characterization of `reading_is_usable` on a nonempty group. -/
lemma reading_is_usable_iff (r : Consumption) (rs : List Consumption)
    (last : Option Int) :
    reading_is_usable (r :: rs) last = true ↔
      (∀ t, last = some t → t < r.start) ∧ periodSum (r :: rs) = oneHour := by
  cases last with
  | none => simp [reading_is_usable]
  | some t =>
    by_cases h : r.start ≤ t
    · simp only [reading_is_usable, if_pos h]
      constructor
      · intro hfalse; cases hfalse
      · rintro ⟨hlt, -⟩
        exact absurd (hlt t rfl) (not_lt.mpr h)
    · simp only [reading_is_usable, if_neg h, decide_eq_true_eq]
      constructor
      · intro hp
        refine ⟨?_, hp⟩
        rintro t' ht'
        cases ht'
        exact lt_of_not_le h
      · rintro ⟨-, hp⟩; exact hp

/-- The number of points emitted by the hour-group loop does not depend on
the running sum carried in. -/
lemma insertHourlyStatistics_length (groups : List (List Consumption))
    (last : Option Int) :
    ∀ s s' : ℚ, (insertHourlyStatistics groups last s).1.length =
      (insertHourlyStatistics groups last s').1.length := by
  induction groups with
  | nil => intro s s'; rfl
  | cons g rest ih =>
    intro s s'
    by_cases h : reading_is_usable g last = true
    · simp only [insertHourlyStatistics, if_pos h, List.length_cons]
      exact congrArg Nat.succ (ih _ _)
    · simp only [insertHourlyStatistics, if_neg h]
      exact ih s s'

/-- The first emitted point's sum is the carried-in sum plus its state. -/
lemma insertHourlyStatistics_head_sum (groups : List (List Consumption))
    (last : Option Int) :
    ∀ (s : ℚ) (p : StatisticData),
      (insertHourlyStatistics groups last s).1.head? = some p →
        p.sum = s + p.state.getD 0 := by
  induction groups with
  | nil => intro s p hp; cases hp
  | cons g rest ih =>
    intro s p hp
    by_cases h : reading_is_usable g last = true
    · simp only [insertHourlyStatistics, if_pos h, List.head?_cons,
        Option.some.injEq] at hp
      subst hp
      simp
    · simp only [insertHourlyStatistics, if_neg h] at hp
      exact ih s p hp

/-- If all reading values are nonnegative, the first emitted point's sum is
at least the carried-in sum. -/
lemma insertHourlyStatistics_head_sum_ge (groups : List (List Consumption))
    (last : Option Int)
    (hval : ∀ g ∈ groups, ∀ r ∈ g, (0 : ℚ) ≤ r.value) :
    ∀ (s : ℚ) (p : StatisticData),
      (insertHourlyStatistics groups last s).1.head? = some p → s ≤ p.sum := by
  induction groups with
  | nil => intro s p hp; cases hp
  | cons g rest ih =>
    intro s p hp
    have hg : ∀ r ∈ g, (0 : ℚ) ≤ r.value := hval g (List.mem_cons_self g rest)
    have hrest : ∀ g' ∈ rest, ∀ r ∈ g', (0 : ℚ) ≤ r.value :=
      fun g' hg' => hval g' (List.mem_cons_of_mem g hg')
    by_cases h : reading_is_usable g last = true
    · simp only [insertHourlyStatistics, if_pos h, List.head?_cons,
        Option.some.injEq] at hp
      subst hp
      have : (0 : ℚ) ≤ (g.map Consumption.value).sum := by
        apply List.sum_nonneg
        intro x hx
        obtain ⟨r, hr, rfl⟩ := List.mem_map.mp hx
        exact hg r hr
      simpa using this
    · simp only [insertHourlyStatistics, if_neg h] at hp
      exact ih hrest s p hp

/-! ### Claim theorems C1 and C2 -/

/-- C1: for every hour-group whose period durations sum to exactly one hour
and whose first start timestamp is strictly after the anchor timestamp (when
present), the hourly aggregator emits exactly one `StatisticData` for the
group, with `start` the group's first reading's start, `state` the sum `v`
of the group's values, and `sum` the running sum carried in plus `v`. -/
theorem hourly_aggregator_emits_point (r : Consumption) (rs : List Consumption)
    (gs : List (List Consumption)) (last : Option Int) (s : ℚ)
    (hperiod : periodSum (r :: rs) = oneHour)
    (hanchor : ∀ t, last = some t → t < r.start) :
    insertHourlyStatistics ((r :: rs) :: gs) last s =
      (⟨r.start, some (((r :: rs).map Consumption.value).sum),
          s + ((r :: rs).map Consumption.value).sum, none, none, none⟩ ::
          (insertHourlyStatistics gs last
            (s + ((r :: rs).map Consumption.value).sum)).1,
        (insertHourlyStatistics gs last
          (s + ((r :: rs).map Consumption.value).sum)).2) := by
  have h : reading_is_usable (r :: rs) last = true :=
    (reading_is_usable_iff r rs last).mpr ⟨hanchor, hperiod⟩
  simp [insertHourlyStatistics, h, groupStart]

/-- Witness for C1: a single complete hour-group with value 2 and no anchor
is emitted as one point with state 2 and sum 0 + 2. -/
theorem hourly_aggregator_emits_point_witness :
    insertHourlyStatistics [[(⟨0, 3600, 2, "kWh"⟩ : Consumption)]] none 0 =
      (⟨(0 : Int), some (([(⟨0, 3600, 2, "kWh"⟩ : Consumption)]).map Consumption.value).sum,
          0 + (([(⟨0, 3600, 2, "kWh"⟩ : Consumption)]).map Consumption.value).sum,
          none, none, none⟩ ::
          (insertHourlyStatistics [] none
            (0 + (([(⟨0, 3600, 2, "kWh"⟩ : Consumption)]).map Consumption.value).sum)).1,
        (insertHourlyStatistics [] none
          (0 + (([(⟨0, 3600, 2, "kWh"⟩ : Consumption)]).map Consumption.value).sum)).2) :=
  hourly_aggregator_emits_point ⟨0, 3600, 2, "kWh"⟩ [] [] none 0 (by decide)
    (fun t h => nomatch h)

/-- C2: for a nonempty hour-group, the aggregator skips the group (emitting
nothing and leaving the running sum and the remaining output unchanged)
exactly when the group's first start is less than or equal to the anchor
timestamp, or the group's period durations do not sum to exactly one hour. -/
theorem hourly_aggregator_skip_iff (r : Consumption) (rs : List Consumption)
    (gs : List (List Consumption)) (last : Option Int) (s : ℚ) :
    insertHourlyStatistics ((r :: rs) :: gs) last s =
        insertHourlyStatistics gs last s ↔
      (∃ t, last = some t ∧ r.start ≤ t) ∨ periodSum (r :: rs) ≠ oneHour := by
  by_cases h : reading_is_usable (r :: rs) last = true
  · obtain ⟨hanchor, hperiod⟩ := (reading_is_usable_iff r rs last).mp h
    constructor
    · intro heq
      exfalso
      have hlen := congrArg (fun x => x.1.length) heq
      simp only [insertHourlyStatistics, if_pos h, List.length_cons] at hlen
      rw [insertHourlyStatistics_length gs last _ s] at hlen
      omega
    · rintro (⟨t, hts, hle⟩ | hp)
      · exact absurd (hanchor t hts) (not_lt.mpr hle)
      · exact absurd hperiod hp
  · have hnc : ¬ ((∀ t, last = some t → t < r.start) ∧
        periodSum (r :: rs) = oneHour) :=
      fun hc => h ((reading_is_usable_iff r rs last).mpr hc)
    constructor
    · intro _
      by_cases hp : periodSum (r :: rs) = oneHour
      · left
        have hna : ¬ ∀ t, last = some t → t < r.start := fun ha => hnc ⟨ha, hp⟩
        push_neg at hna
        obtain ⟨t, ht, hnlt⟩ := hna
        exact ⟨t, ht, hnlt⟩
      · right; exact hp
    · intro _
      simp only [insertHourlyStatistics, if_neg h]

/-- Witness for C2: a group starting at the anchor timestamp is skipped with
the running sum unchanged. -/
theorem hourly_aggregator_skip_iff_witness :
    insertHourlyStatistics [[(⟨0, 3600, 2, "kWh"⟩ : Consumption)]] (some 10) 5 =
      insertHourlyStatistics [] (some 10) 5 :=
  (hourly_aggregator_skip_iff ⟨0, 3600, 2, "kWh"⟩ [] [] (some 10) 5).mpr
    (Or.inl ⟨10, rfl, by decide⟩)

/-! ### Helper lemmas for the running-sum invariant -/

/-- Adjacent points emitted by the hourly aggregator satisfy
`sum(n) = sum(n-1) + state(n)`. -/
lemma insertHourly_chain_sum (gs : List (List Consumption)) (last : Option Int) :
    ∀ s : ℚ, List.Chain' (fun p q => q.sum = p.sum + q.state.getD 0)
      (insertHourlyStatistics gs last s).1 := by
  induction gs with
  | nil => intro s; simp [insertHourlyStatistics]
  | cons g rest ih =>
    intro s
    by_cases h : reading_is_usable g last = true
    · simp only [insertHourlyStatistics, if_pos h]
      refine List.chain'_cons'.mpr ⟨?_, ih _⟩
      intro q hq
      rw [Option.mem_def] at hq
      have hs := insertHourlyStatistics_head_sum rest last _ q hq
      simpa using hs
    · simp only [insertHourlyStatistics, if_neg h]
      exact ih s

/-- With nonnegative reading values, the sums emitted by the hourly
aggregator are monotonically non-decreasing. -/
lemma insertHourly_chain_le (gs : List (List Consumption)) (last : Option Int) :
    (∀ g ∈ gs, ∀ r ∈ g, (0 : ℚ) ≤ r.value) →
      ∀ s : ℚ, List.Chain' (fun p q => p.sum ≤ q.sum)
        (insertHourlyStatistics gs last s).1 := by
  induction gs with
  | nil => intro _ s; simp [insertHourlyStatistics]
  | cons g rest ih =>
    intro hval s
    have hrest : ∀ g' ∈ rest, ∀ r ∈ g', (0 : ℚ) ≤ r.value :=
      fun g' hg' => hval g' (List.mem_cons_of_mem g hg')
    by_cases h : reading_is_usable g last = true
    · simp only [insertHourlyStatistics, if_pos h]
      refine List.chain'_cons'.mpr ⟨?_, ih hrest _⟩
      intro q hq
      rw [Option.mem_def] at hq
      have hs := insertHourlyStatistics_head_sum_ge rest last hrest _ q hq
      simpa using hs
    · simp only [insertHourlyStatistics, if_neg h]
      exact ih hrest s

/-- The first point produced by the derived-statistic transformer has sum
equal to the carried-in sum plus its (null-defaulted) state. -/
lemma derive_statistic_head_sum (bs : List BaseStat) (f : ℚ → ℚ) :
    ∀ (s : ℚ) (p : StatisticData),
      (derive_statistic bs f s).head? = some p → p.sum = s + p.state.getD 0 := by
  induction bs with
  | nil => intro s p hp; cases hp
  | cons b rest ih =>
    intro s p hp
    cases hb : b.state with
    | none =>
      simp only [derive_statistic, hb, List.head?_cons, Option.some.injEq] at hp
      subst hp
      simp
    | some v =>
      simp only [derive_statistic, hb, List.head?_cons, Option.some.injEq] at hp
      subst hp
      simp

/-- With a nonnegative transform, the first point produced by the
derived-statistic transformer has sum at least the carried-in sum. -/
lemma derive_statistic_head_sum_ge (bs : List BaseStat) (f : ℚ → ℚ)
    (hf : ∀ x, (0 : ℚ) ≤ f x) :
    ∀ (s : ℚ) (p : StatisticData),
      (derive_statistic bs f s).head? = some p → s ≤ p.sum := by
  induction bs with
  | nil => intro s p hp; cases hp
  | cons b rest ih =>
    intro s p hp
    cases hb : b.state with
    | none =>
      simp only [derive_statistic, hb, List.head?_cons, Option.some.injEq] at hp
      subst hp
      simp
    | some v =>
      simp only [derive_statistic, hb, List.head?_cons, Option.some.injEq] at hp
      subst hp
      simpa using hf v

/-- Adjacent points produced by the derived-statistic transformer satisfy
`sum(n) = sum(n-1) + state(n)` with null states defaulting to 0. -/
lemma derive_chain_sum (bs : List BaseStat) (f : ℚ → ℚ) :
    ∀ s : ℚ, List.Chain' (fun p q => q.sum = p.sum + q.state.getD 0)
      (derive_statistic bs f s) := by
  induction bs with
  | nil => intro s; simp [derive_statistic]
  | cons b rest ih =>
    intro s
    cases hb : b.state with
    | none =>
      simp only [derive_statistic, hb]
      refine List.chain'_cons'.mpr ⟨?_, ih _⟩
      intro q hq
      rw [Option.mem_def] at hq
      have hs := derive_statistic_head_sum rest f _ q hq
      simpa using hs
    | some v =>
      simp only [derive_statistic, hb]
      refine List.chain'_cons'.mpr ⟨?_, ih _⟩
      intro q hq
      rw [Option.mem_def] at hq
      have hs := derive_statistic_head_sum rest f _ q hq
      simpa using hs

/-- With a nonnegative transform, the sums produced by the derived-statistic
transformer are monotonically non-decreasing. -/
lemma derive_chain_le (bs : List BaseStat) (f : ℚ → ℚ)
    (hf : ∀ x, (0 : ℚ) ≤ f x) :
    ∀ s : ℚ, List.Chain' (fun p q => p.sum ≤ q.sum)
      (derive_statistic bs f s) := by
  induction bs with
  | nil => intro s; simp [derive_statistic]
  | cons b rest ih =>
    intro s
    cases hb : b.state with
    | none =>
      simp only [derive_statistic, hb]
      refine List.chain'_cons'.mpr ⟨?_, ih _⟩
      intro q hq
      rw [Option.mem_def] at hq
      have hs := derive_statistic_head_sum_ge rest f hf _ q hq
      simpa using hs
    | some v =>
      simp only [derive_statistic, hb]
      refine List.chain'_cons'.mpr ⟨?_, ih _⟩
      intro q hq
      rw [Option.mem_def] at hq
      have hs := derive_statistic_head_sum_ge rest f hf _ q hq
      simpa using hs

/-! ### Claim C9 -/

/-- C9 (amended): across the hourly insertion operations and the
derived-statistic transform, adjacent emitted points always satisfy
`sum(n) = sum(n-1) + state(n)` (null states defaulting to 0); and the
sequence of sums is monotonically non-decreasing provided all reading
values (resp. all transformed states) are non-negative. -/
theorem running_sum_invariant (gs : List (List Consumption)) (last : Option Int)
    (bs : List BaseStat) (f : ℚ → ℚ) (s0 t0 : ℚ) :
    List.Chain' (fun p q => q.sum = p.sum + q.state.getD 0)
        (insertHourlyStatistics gs last s0).1 ∧
      ((∀ g ∈ gs, ∀ r ∈ g, (0 : ℚ) ≤ r.value) →
        List.Chain' (fun p q => p.sum ≤ q.sum)
          (insertHourlyStatistics gs last s0).1) ∧
      List.Chain' (fun p q => q.sum = p.sum + q.state.getD 0)
        (derive_statistic bs f t0) ∧
      ((∀ x, (0 : ℚ) ≤ f x) →
        List.Chain' (fun p q => p.sum ≤ q.sum) (derive_statistic bs f t0)) :=
  ⟨insertHourly_chain_sum gs last s0,
    fun hval => insertHourly_chain_le gs last hval s0,
    derive_chain_sum bs f t0,
    fun hf => derive_chain_le bs f hf t0⟩

/-- Witness for C9: two complete hour-groups with nonnegative values and a
one-point base series with the absolute-value transform. -/
theorem running_sum_invariant_witness :
    List.Chain' (fun p q => q.sum = p.sum + q.state.getD 0)
        (insertHourlyStatistics
          [[(⟨0, 3600, 1, "kWh"⟩ : Consumption)],
            [(⟨3600, 3600, 2, "kWh"⟩ : Consumption)]] none 0).1 ∧
      List.Chain' (fun p q => p.sum ≤ q.sum)
        (insertHourlyStatistics
          [[(⟨0, 3600, 1, "kWh"⟩ : Consumption)],
            [(⟨3600, 3600, 2, "kWh"⟩ : Consumption)]] none 0).1 ∧
      List.Chain' (fun p q => q.sum = p.sum + q.state.getD 0)
        (derive_statistic [(⟨0, some 2, 0, none, none, none⟩ : BaseStat)]
          (fun x => |x|) 0) ∧
      List.Chain' (fun p q => p.sum ≤ q.sum)
        (derive_statistic [(⟨0, some 2, 0, none, none, none⟩ : BaseStat)]
          (fun x => |x|) 0) := by
  obtain ⟨h1, h2, h3, h4⟩ :=
    running_sum_invariant
      [[(⟨0, 3600, 1, "kWh"⟩ : Consumption)],
        [(⟨3600, 3600, 2, "kWh"⟩ : Consumption)]] none
      [(⟨0, some 2, 0, none, none, none⟩ : BaseStat)] (fun x => |x|) 0 0
  exact ⟨h1, h2 (by decide), h3, h4 (fun x => abs_nonneg x)⟩

/-- Counterexample for C9: with a negative reading value (which the code
accepts), the emitted sums decrease: the two complete hour-groups below
produce sums `[1, 0]`, so the sum sequence is not monotonically
non-decreasing. -/
theorem running_sum_monotone_counterexample :
    ((insertHourlyStatistics
        [[(⟨0, 3600, 1, "kWh"⟩ : Consumption)],
          [(⟨3600, 3600, -1, "kWh"⟩ : Consumption)]] none 0).1.map
        StatisticData.sum = [1, 0]) ∧
      ¬ List.Chain' (fun p q => p.sum ≤ q.sum)
        (insertHourlyStatistics
          [[(⟨0, 3600, 1, "kWh"⟩ : Consumption)],
            [(⟨3600, 3600, -1, "kWh"⟩ : Consumption)]] none 0).1 := by
  have hout : (insertHourlyStatistics
      [[(⟨0, 3600, 1, "kWh"⟩ : Consumption)],
        [(⟨3600, 3600, -1, "kWh"⟩ : Consumption)]] none 0).1 =
      [⟨0, some 1, 1, none, none, none⟩, ⟨3600, some (-1), 0, none, none, none⟩] := by
    norm_num [insertHourlyStatistics, reading_is_usable, periodSum, oneHour,
      groupStart]
  rw [hout]
  refine ⟨by norm_num, ?_⟩
  rw [List.chain'_pair]
  norm_num

/-! ### Claims C6 and C5 -/

/-- Min/max/mean fields of the derived series are the base fields
transformed pointwise, independently of the carried sum. -/
lemma derive_statistic_fields (f : ℚ → ℚ) :
    ∀ (bs : List BaseStat) (s : ℚ),
      (derive_statistic bs f s).map StatisticData.min =
          bs.map (fun b => b.min.map f) ∧
        (derive_statistic bs f s).map StatisticData.max =
          bs.map (fun b => b.max.map f) ∧
        (derive_statistic bs f s).map StatisticData.mean =
          bs.map (fun b => b.mean.map f) := by
  intro bs
  induction bs with
  | nil => intro s; simp [derive_statistic]
  | cons b rest ih =>
    intro s
    cases hb : b.state with
    | none =>
      obtain ⟨h1, h2, h3⟩ := ih s
      simp [derive_statistic, hb, h1, h2, h3]
    | some v =>
      obtain ⟨h1, h2, h3⟩ := ih (s + f v)
      simp [derive_statistic, hb, h1, h2, h3]

/-- C6: the derived-statistic transformer maps base states `[s1, s2, s3]` to
states `[f(s1), f(s2), f(s3)]` with running sums `[sum0+f(s1),
sum0+f(s1)+f(s2), sum0+f(s1)+f(s2)+f(s3)]`; a null base state is propagated
as a null state with the running sum unchanged; and the `min`/`max`/`mean`
fields are transformed pointwise with the same `f`. -/
theorem derive_statistic_spec (f : ℚ → ℚ) (sum0 : ℚ) :
    (∀ (b1 b2 b3 : BaseStat) (s1 s2 s3 : ℚ),
      b1.state = some s1 → b2.state = some s2 → b3.state = some s3 →
        (derive_statistic [b1, b2, b3] f sum0).map StatisticData.state =
            [some (f s1), some (f s2), some (f s3)] ∧
          (derive_statistic [b1, b2, b3] f sum0).map StatisticData.sum =
            [sum0 + f s1, sum0 + f s1 + f s2, sum0 + f s1 + f s2 + f s3]) ∧
      (∀ (b : BaseStat) (bs : List BaseStat), b.state = none →
        derive_statistic (b :: bs) f sum0 =
          ⟨b.start, none, sum0, b.min.map f, b.max.map f, b.mean.map f⟩ ::
            derive_statistic bs f sum0) ∧
      (∀ bs : List BaseStat,
        (derive_statistic bs f sum0).map StatisticData.min =
            bs.map (fun b => b.min.map f) ∧
          (derive_statistic bs f sum0).map StatisticData.max =
            bs.map (fun b => b.max.map f) ∧
          (derive_statistic bs f sum0).map StatisticData.mean =
            bs.map (fun b => b.mean.map f)) := by
  refine ⟨?_, ?_, fun bs => derive_statistic_fields f bs sum0⟩
  · intro b1 b2 b3 s1 s2 s3 h1 h2 h3
    constructor
    · simp [derive_statistic, h1, h2, h3]
    · simp [derive_statistic, h1, h2, h3]
  · intro b bs hb
    simp [derive_statistic, hb]

/-- Witness for C6: a three-point base series with states 1, 2, 3 under the
doubling transform, plus a null-state base point. -/
theorem derive_statistic_spec_witness :
    ((derive_statistic
        [(⟨0, some 1, 0, some 5, none, none⟩ : BaseStat),
          ⟨3600, some 2, 0, none, none, none⟩,
          ⟨7200, some 3, 0, none, none, none⟩] (fun x => 2 * x) 0).map
        StatisticData.state = [some (2 * 1), some (2 * 2), some (2 * 3)] ∧
      (derive_statistic
          [(⟨0, some 1, 0, some 5, none, none⟩ : BaseStat),
            ⟨3600, some 2, 0, none, none, none⟩,
            ⟨7200, some 3, 0, none, none, none⟩] (fun x => 2 * x) 0).map
        StatisticData.sum =
          [0 + 2 * 1, 0 + 2 * 1 + 2 * 2, 0 + 2 * 1 + 2 * 2 + 2 * 3]) ∧
      derive_statistic [(⟨0, none, 7, some 5, none, none⟩ : BaseStat)]
          (fun x => 2 * x) 0 =
        ⟨0, none, 0, some (2 * 5), none, none⟩ ::
          derive_statistic [] (fun x => 2 * x) 0 ∧
      (derive_statistic
          [(⟨0, some 1, 0, some 5, none, none⟩ : BaseStat)]
          (fun x => 2 * x) 0).map StatisticData.min =
        [(⟨0, some 1, 0, some 5, none, none⟩ : BaseStat)].map
          (fun b => b.min.map (fun x => 2 * x)) := by
  obtain ⟨h1, h2, h3⟩ := derive_statistic_spec (fun x => 2 * x) 0
  exact ⟨h1 ⟨0, some 1, 0, some 5, none, none⟩ ⟨3600, some 2, 0, none, none, none⟩
      ⟨7200, some 3, 0, none, none, none⟩ 1 2 3 rfl rfl rfl,
    h2 ⟨0, none, 7, some 5, none, none⟩ [] rfl,
    (h3 [⟨0, some 1, 0, some 5, none, none⟩]).1⟩

/-- C5: with a last recorded end time `T`, the freshness gate reports no new
data for `now` in `[T, T + 75 minutes]` and new data for
`now > T + 75 minutes`; with no previous point it reports new data. -/
theorem freshness_gate (T now : Int) :
    (T ≤ now → now ≤ T + 75 * 60 → expecting_newer_data (some T) now = false) ∧
      (T + 75 * 60 < now → expecting_newer_data (some T) now = true) ∧
      expecting_newer_data none now = true := by
  refine ⟨fun h1 h2 => ?_, fun h1 => ?_, rfl⟩
  · simp only [expecting_newer_data, Bool.not_eq_false', decide_eq_true_eq]
    omega
  · simp only [expecting_newer_data, Bool.not_eq_true', decide_eq_false_iff_not]
    omega

/-- Witness for C5: one hour after `T` the gate is closed, at 76 minutes it
is open, and with no previous point it is open. -/
theorem freshness_gate_witness :
    expecting_newer_data (some 0) 3600 = false ∧
      expecting_newer_data (some 0) 4560 = true ∧
      expecting_newer_data none 0 = true :=
  ⟨(freshness_gate 0 3600).1 (by decide) (by decide),
    (freshness_gate 0 4560).2.1 (by decide),
    (freshness_gate 0 0).2.2⟩

/-! ### Rounding lemmas and claim C3 -/

/-- Half-even rounding moves a rational by at most one half. -/
lemma roundHalfEven_sub_le (q : ℚ) : |(roundHalfEven q : ℚ) - q| ≤ 1 / 2 := by
  have hf : ((⌊q⌋ : ℤ) : ℚ) ≤ q := Int.floor_le q
  have hf2 : q < (⌊q⌋ : ℚ) + 1 := Int.lt_floor_add_one q
  simp only [roundHalfEven]
  split_ifs with h1 h2 h3 <;> rw [abs_le] <;> constructor <;> push_cast <;> linarith

/-- `round3` moves a rational by at most `1/2000`. -/
lemma round3_sub_le (q : ℚ) : |round3 q - q| ≤ 1 / 2000 := by
  have h := roundHalfEven_sub_le (q * 1000)
  unfold round3
  have heq : (roundHalfEven (q * 1000) : ℚ) / 1000 - q =
      ((roundHalfEven (q * 1000) : ℚ) - q * 1000) / 1000 := by ring
  rw [heq, abs_div, abs_of_pos (by norm_num : (0 : ℚ) < 1000)]
  linarith

/-- Half-even rounding fixes integers. -/
lemma roundHalfEven_intCast (m : ℤ) : roundHalfEven (m : ℚ) = m := by
  norm_num [roundHalfEven, Int.floor_intCast]

/-- `round3` fixes integer multiples of `1/1000`. -/
lemma round3_fixed (m : ℤ) : round3 ((m : ℚ) / 1000) = (m : ℚ) / 1000 := by
  unfold round3
  rw [div_mul_cancel₀ (m : ℚ) (by norm_num : (1000 : ℚ) ≠ 0),
    roundHalfEven_intCast]

/-- `round3 0 = 0`. -/
lemma round3_zero : round3 0 = 0 := by
  have h := round3_fixed 0
  norm_num at h
  exact h

/-- C3 (amended): for every input tuple on which the assertions pass, both
variants succeed, and their values sum to the input consumption value within
`0.001`; when `self_sufficiency` is absent, the supply-from-PV value is 0
and the supply-from-grid value is the input consumption value rounded to
three decimals — hence equal to the input exactly when that value is an
integer multiple of `0.001`. -/
theorem supply_variants_sum (start period : Int) (ec : Consumption)
    (pv : PhotovoltaicSummary)
    (hunit : ∀ q, pv.self_sufficiency = some q → q.unit = "%") :
    ∃ dpv dgrid : Consumption,
      supplyFromPv_calculate_datapoint start period ec pv = Except.ok dpv ∧
        supplyFromGrid_calculate_datapoint start period ec pv = Except.ok dgrid ∧
        |dpv.value + dgrid.value - ec.value| ≤ 1 / 1000 ∧
        (pv.self_sufficiency = none →
          dpv.value = 0 ∧ dgrid.value = round3 ec.value ∧
            ∀ m : ℤ, ec.value = (m : ℚ) / 1000 → dgrid.value = ec.value) := by
  cases hss : pv.self_sufficiency with
  | none =>
    refine ⟨⟨start, period, round3 (ec.value * 0), ec.unit⟩,
      ⟨start, period, round3 (ec.value * (1 - 0)), ec.unit⟩, ?_, ?_, ?_, ?_⟩
    · simp [supplyFromPv_calculate_datapoint, hss]
    · simp [supplyFromGrid_calculate_datapoint, hss]
    · have h0 : round3 (ec.value * 0) = 0 := by rw [mul_zero, round3_zero]
      have h1 : ec.value * (1 - 0) = ec.value := by ring
      rw [h0, h1]
      have h := round3_sub_le ec.value
      rw [abs_le] at h ⊢
      constructor <;> linarith [h.1, h.2]
    · intro _
      have h0 : round3 (ec.value * 0) = 0 := by rw [mul_zero, round3_zero]
      have h1 : ec.value * (1 - 0) = ec.value := by ring
      refine ⟨h0, by rw [h1], ?_⟩
      intro m hm
      rw [h1, hm, round3_fixed]
  | some q =>
    have hq : q.unit = "%" := hunit q hss
    refine ⟨⟨start, period, round3 (ec.value * (q.value / 100)), ec.unit⟩,
      ⟨start, period, round3 (ec.value * (1 - q.value / 100)), ec.unit⟩,
      ?_, ?_, ?_, ?_⟩
    · simp [supplyFromPv_calculate_datapoint, hss, hq]
    · simp [supplyFromGrid_calculate_datapoint, hss, hq]
    · have ha := round3_sub_le (ec.value * (q.value / 100))
      have hb := round3_sub_le (ec.value * (1 - q.value / 100))
      have hsum : ec.value * (q.value / 100) + ec.value * (1 - q.value / 100) =
          ec.value := by ring
      rw [abs_le] at ha hb ⊢
      constructor <;> linarith [ha.1, ha.2, hb.1, hb.2]
    · intro hc
      exact Option.noConfusion hc

/-- Witness for C3: a 5 kWh consumption with 50 % self-sufficiency. -/
theorem supply_variants_sum_witness :
    ∃ dpv dgrid : Consumption,
      supplyFromPv_calculate_datapoint 0 3600 ⟨0, 3600, 5, "kWh"⟩
          ⟨0, 3600, ⟨0, "kWh"⟩, ⟨0, "kWh"⟩, none, some ⟨50, "%"⟩⟩ =
        Except.ok dpv ∧
        supplyFromGrid_calculate_datapoint 0 3600 ⟨0, 3600, 5, "kWh"⟩
            ⟨0, 3600, ⟨0, "kWh"⟩, ⟨0, "kWh"⟩, none, some ⟨50, "%"⟩⟩ =
          Except.ok dgrid ∧
        |dpv.value + dgrid.value - (⟨0, 3600, 5, "kWh"⟩ : Consumption).value| ≤
          1 / 1000 ∧
        ((⟨0, 3600, ⟨0, "kWh"⟩, ⟨0, "kWh"⟩, none, some ⟨50, "%"⟩⟩ :
            PhotovoltaicSummary).self_sufficiency = none →
          dpv.value = 0 ∧
            dgrid.value = round3 (⟨0, 3600, 5, "kWh"⟩ : Consumption).value ∧
            ∀ m : ℤ, (⟨0, 3600, 5, "kWh"⟩ : Consumption).value = (m : ℚ) / 1000 →
              dgrid.value = (⟨0, 3600, 5, "kWh"⟩ : Consumption).value) :=
  supply_variants_sum 0 3600 ⟨0, 3600, 5, "kWh"⟩
    ⟨0, 3600, ⟨0, "kWh"⟩, ⟨0, "kWh"⟩, none, some ⟨50, "%"⟩⟩
    (fun q h => by cases h; rfl)

/-- Counterexample for C3 as stated: for the (float-representable)
consumption value `1/512` with absent `self_sufficiency`, the
supply-from-grid value is `round(1/512, 3) = 0.002 = 1/500`, which differs
from the input consumption value. -/
theorem supply_from_grid_counterexample :
    (supplyFromGrid_calculate_datapoint 0 3600 ⟨0, 3600, 1 / 512, "kWh"⟩
        ⟨0, 3600, ⟨0, "kWh"⟩, ⟨0, "kWh"⟩, none, none⟩).map Consumption.value =
      Except.ok (1 / 500) ∧ (1 / 500 : ℚ) ≠ 1 / 512 := by
  constructor
  · have hfl : ⌊(125 / 64 : ℚ)⌋ = 1 := by
      rw [Int.floor_eq_iff]
      norm_num
    have hval : round3 ((1 / 512 : ℚ) * (1 - 0)) = 1 / 500 := by
      have harg : ((1 / 512 : ℚ) * (1 - 0)) * 1000 = 125 / 64 := by norm_num
      simp only [round3, harg, roundHalfEven, hfl]
      norm_num
    simp only [supplyFromGrid_calculate_datapoint]
    rw [hval]
    rfl
  · norm_num

/-! ### Claim C4: binary search -/

/-- Loop invariant of the bisection loop: starting from a window `[lo, hi)`
with everything below `lo` false and everything in `[hi, len)` true, the
loop (under monotonicity of the index predicate) lands on a split point:
everything below the result is false and everything from the result to the
end is true. -/
lemma bisectLoop_invariant {α : Type} (a : List α) (key : α → Bool)
    (mono : ∀ j, j < a.length → ∀ i, i ≤ j →
      bisect_key a key i = true → bisect_key a key j = true) :
    ∀ (n lo hi : Nat), hi - lo ≤ n → lo ≤ hi → hi ≤ a.length →
      (∀ i, i < lo → bisect_key a key i = false) →
      (∀ i, hi ≤ i → i < a.length → bisect_key a key i = true) →
      lo ≤ bisectLoop a key lo hi ∧ bisectLoop a key lo hi ≤ hi ∧
        (∀ i, i < bisectLoop a key lo hi → bisect_key a key i = false) ∧
        (∀ i, bisectLoop a key lo hi ≤ i → i < a.length →
          bisect_key a key i = true) := by
  intro n
  induction n with
  | zero =>
    intro lo hi hn hlohi hhi hlow hhigh
    have hstep : bisectLoop a key lo hi = lo := by
      conv_lhs => rw [bisectLoop]
      rw [dif_neg (by omega : ¬ lo < hi)]
    rw [hstep]
    exact ⟨le_refl lo, hlohi, hlow, fun i h1 h2 => hhigh i (by omega) h2⟩
  | succ n ih =>
    intro lo hi hn hlohi hhi hlow hhigh
    by_cases hlt : lo < hi
    · have hstep : bisectLoop a key lo hi =
          if bisect_key a key ((lo + hi) / 2) then
            bisectLoop a key lo ((lo + hi) / 2)
          else
            bisectLoop a key ((lo + hi) / 2 + 1) hi := by
        conv_lhs => rw [bisectLoop]
        rw [dif_pos hlt]
      cases hmid : bisect_key a key ((lo + hi) / 2) with
      | true =>
        rw [hstep, if_pos hmid]
        have hhigh' : ∀ i, (lo + hi) / 2 ≤ i → i < a.length →
            bisect_key a key i = true :=
          fun i h1 h2 => mono i h2 ((lo + hi) / 2) h1 hmid
        have hres := ih lo ((lo + hi) / 2) (by omega) (by omega) (by omega)
          hlow hhigh'
        exact ⟨hres.1, le_trans hres.2.1 (by omega), hres.2.2.1, hres.2.2.2⟩
      | false =>
        rw [hstep, if_neg (by simp [hmid])]
        have hlow' : ∀ i, i < (lo + hi) / 2 + 1 → bisect_key a key i = false := by
          intro i h1
          by_cases hil : i < lo
          · exact hlow i hil
          · cases hcontra : bisect_key a key i with
            | false => rfl
            | true =>
              have hm : bisect_key a key ((lo + hi) / 2) = true :=
                mono ((lo + hi) / 2) (by omega) i (by omega) hcontra
              rw [hmid] at hm
              cases hm
        have hres := ih ((lo + hi) / 2 + 1) hi (by omega) (by omega) hhi
          hlow' hhigh
        exact ⟨le_trans (by omega : lo ≤ (lo + hi) / 2 + 1) hres.1, hres.2.1,
          hres.2.2.1, hres.2.2.2⟩
    · have hstep : bisectLoop a key lo hi = lo := by
        conv_lhs => rw [bisectLoop]
        rw [dif_neg hlt]
      rw [hstep]
      exact ⟨le_refl lo, hlohi, hlow, fun i h1 h2 => hhigh i (by omega) h2⟩

/-- C4: for a predicate that is a monotonic step function on the sequence,
`bisect` returns the lowest index at which the predicate holds (the unique
crossover point), and it raises the `StopIteration` error exactly when the
predicate is false on every element. -/
theorem bisect_spec {α : Type} (a : List α) (key : α → Bool)
    (mono : ∀ j, j < a.length → ∀ i, i ≤ j →
      bisect_key a key i = true → bisect_key a key j = true) :
    (∀ r, bisect a key = Except.ok r →
      r < a.length ∧ bisect_key a key r = true ∧
        ∀ i, i < r → bisect_key a key i = false) ∧
      (bisect a key =
          Except.error (PyError.stopIteration
            "Did not find an element x where key of x is True.") ↔
        ∀ i, i < a.length → bisect_key a key i = false) := by
  obtain ⟨-, hle, hlow, hhigh⟩ :=
    bisectLoop_invariant a key mono a.length 0 a.length (by omega) (by omega)
      (le_refl _) (fun i h => absurd h (Nat.not_lt_zero i))
      (fun i h1 h2 => absurd h2 (by omega))
  constructor
  · intro r hr
    simp only [bisect] at hr
    by_cases hcase : bisectLoop a key 0 a.length = a.length
    · rw [if_pos hcase] at hr
      cases hr
    · rw [if_neg hcase] at hr
      have hrr : bisectLoop a key 0 a.length = r := by
        injection hr
      have hlt : bisectLoop a key 0 a.length < a.length :=
        lt_of_le_of_ne hle hcase
      rw [hrr] at hlt hlow hhigh
      exact ⟨hlt, hhigh r (le_refl r) hlt, hlow⟩
  · constructor
    · intro herr
      simp only [bisect] at herr
      by_cases hcase : bisectLoop a key 0 a.length = a.length
      · intro i hi
        exact hlow i (by omega)
      · rw [if_neg hcase] at herr
        cases herr
    · intro hall
      simp only [bisect]
      have hcase : bisectLoop a key 0 a.length = a.length := by
        by_contra hne
        have hlt : bisectLoop a key 0 a.length < a.length :=
          lt_of_le_of_ne hle hne
        have htrue := hhigh _ (le_refl _) hlt
        rw [hall _ hlt] at htrue
        cases htrue
      rw [if_pos hcase]

/-- Witness for C4: on `[false, false, true]` with the identity predicate,
`bisect` returns index 2, which satisfies the predicate while all lower
indices do not. -/
theorem bisect_spec_witness :
    (2 : Nat) < ([false, false, true] : List Bool).length ∧
      bisect_key [false, false, true] (fun b => b) 2 = true ∧
      ∀ i, i < 2 → bisect_key [false, false, true] (fun b => b) i = false := by
  have hb : bisect [false, false, true] (fun b => b) = Except.ok 2 := by
    simp [bisect, bisectLoop, bisect_key]
  exact (bisect_spec [false, false, true] (fun b => b) (by decide)).1 2 hb

/-! ### Claim C7: measurement pairing -/

/-- Mapping the success value does not change whether an `Except` is ok. -/
lemma isOk_map {ε β γ : Type} (f : β → γ) (e : Except ε β) :
    (Except.map f e).isOk = e.isOk := by
  cases e <;> rfl

/-- C7 (amended): positional pairing succeeds iff every positionally paired
element within the common prefix (the zip of the two sequences, which
truncates to the shorter one) agrees in start and period; a bare length
mismatch with an aligned common prefix does not make pairing fail. -/
theorem zip_measurements_ok_iff (s1 : List Consumption)
    (s2 : List PhotovoltaicSummary) :
    (zip_measurements s1 s2).isOk = true ↔
      ∀ p ∈ s1.zip s2, p.1.start = p.2.start ∧ p.1.period = p.2.period := by
  induction s1 generalizing s2 with
  | nil => cases s2 <;> simp [zip_measurements, Except.isOk, Except.toBool]
  | cons m1 t1 ih =>
    cases s2 with
    | nil => simp [zip_measurements, Except.isOk, Except.toBool]
    | cons m2 t2 =>
      by_cases h1 : m1.start = m2.start
      · by_cases h2 : m1.period = m2.period
        · have hz : zip_measurements (m1 :: t1) (m2 :: t2) =
              (zip_measurements t1 t2).map
                (fun rest => (m1.start, m1.period, m1, m2) :: rest) := by
            simp [zip_measurements, h1, h2]
          rw [hz, isOk_map, ih t2]
          simp only [List.zip_cons_cons, List.mem_cons]
          constructor
          · rintro h p (rfl | hp)
            · exact ⟨h1, h2⟩
            · exact h p hp
          · intro h p hp
            exact h p (Or.inr hp)
        · have hz : zip_measurements (m1 :: t1) (m2 :: t2) =
              Except.error (PyError.valueError "Periods do not match.") := by
            simp [zip_measurements, h1, h2]
          rw [hz]
          simp only [Except.isOk, List.zip_cons_cons, List.mem_cons]
          constructor
          · intro h
            exact absurd h (by simp [Except.isOk, Except.toBool])
          · intro hall
            exact absurd (hall (m1, m2) (Or.inl rfl)).2 h2
      · have hz : zip_measurements (m1 :: t1) (m2 :: t2) =
            Except.error (PyError.valueError "Start dates do not match.") := by
          simp [zip_measurements, h1]
        rw [hz]
        simp only [Except.isOk, List.zip_cons_cons, List.mem_cons]
        constructor
        · intro h
          exact absurd h (by simp [Except.isOk, Except.toBool])
        · intro hall
          exact absurd (hall (m1, m2) (Or.inl rfl)).1 h1

/-- Witness for C7: two aligned one-element series pair successfully. -/
theorem zip_measurements_ok_iff_witness :
    (zip_measurements [(⟨0, 900, 1, "kWh"⟩ : Consumption)]
        [(⟨0, 900, ⟨0, "kWh"⟩, ⟨0, "kWh"⟩, none, none⟩ :
          PhotovoltaicSummary)]).isOk = true :=
  (zip_measurements_ok_iff [⟨0, 900, 1, "kWh"⟩]
      [⟨0, 900, ⟨0, "kWh"⟩, ⟨0, "kWh"⟩, none, none⟩]).mpr (by decide)

/-- Counterexample for C7 as stated: the two series below have different
lengths, yet pairing succeeds (zip is called without `strict`, so it
silently truncates to the shorter series instead of falling back). -/
theorem zip_measurements_counterexample :
    zip_measurements [(⟨0, 900, 1, "kWh"⟩ : Consumption)]
        [(⟨0, 900, ⟨0, "kWh"⟩, ⟨0, "kWh"⟩, none, none⟩ : PhotovoltaicSummary),
          ⟨900, 900, ⟨0, "kWh"⟩, ⟨0, "kWh"⟩, none, none⟩] =
      Except.ok [(0, 900, ⟨0, 900, 1, "kWh"⟩,
          ⟨0, 900, ⟨0, "kWh"⟩, ⟨0, "kWh"⟩, none, none⟩)] ∧
      ([(⟨0, 900, 1, "kWh"⟩ : Consumption)] : List Consumption).length ≠
        ([⟨0, 900, ⟨0, "kWh"⟩, ⟨0, "kWh"⟩, none, none⟩,
          ⟨900, 900, ⟨0, "kWh"⟩, ⟨0, "kWh"⟩, none, none⟩] :
          List PhotovoltaicSummary).length := by
  exact ⟨rfl, by decide⟩

/-! ### Claim C8: backfill starting dates -/

/-- A nonempty inclusive date range starts at its lower bound. -/
lemma date_range_head (lo hi : Int) (h : lo ≤ hi) :
    (date_range lo hi).head? = some lo := by
  unfold date_range
  have hn : (hi + 1 - lo).toNat = (hi - lo).toNat + 1 := by omega
  rw [hn, List.range_succ_eq_map]
  simp

/-- C8 (amended): when a previous point exists, both backfill planners start
at the date of the stored point's own start timestamp (`last_stats_time`) —
the consumption-type and the photovoltaic/quarter planner behave the same
way; neither uses the end timestamp. -/
theorem backfill_start_dates (t now since untl : Int)
    (h1 : dateOf t ≤ min (dateOf now) (untl + 1))
    (h2 : dateOf t ≤ dateOf now) :
    (dates_to_insert_individual (some t) now since untl).head? =
        some (dateOf t) ∧
      (dates_to_insert_quarter_pv t now).head? = some (dateOf t) := by
  constructor
  · simp only [dates_to_insert_individual]
    exact date_range_head _ _ h1
  · simp only [dates_to_insert_quarter_pv]
    exact date_range_head _ _ h2

/-- Witness for C8: a stored point starting at 23:00 of day 0, now in day 2;
both planners start at day 0. -/
theorem backfill_start_dates_witness :
    (dates_to_insert_individual (some 82800) 216000 0 5).head? =
        some (dateOf 82800) ∧
      (dates_to_insert_quarter_pv 82800 216000).head? = some (dateOf 82800) :=
  backfill_start_dates 82800 216000 0 5 (by decide) (by decide)

/-- Counterexample for C8 as stated: stored point start 23:00 of day 0
(timestamp 82800), end midnight of day 1 (timestamp 86400), now noon of day
2. The gate would pass, and the quarter planner starts at day 0 — the date
of the start timestamp — not at day 1, the bucket date of the recorded end
that the claim asserts. -/
theorem backfill_start_date_counterexample :
    expecting_newer_data (some 86400) 216000 = true ∧
      (dates_to_insert_quarter_pv 82800 216000).head? = some 0 ∧
      dateOf 86400 = 1 ∧ (0 : Int) ≠ 1 := by
  decide

/-! ### Claim C10: aggregate fallback on all-absent optional quantities -/

/-- C10: in the hourly-aggregate fallback, if every photovoltaic summary has
an absent `own_consumption`, or every one has an absent `self_sufficiency`,
the construction raises an exception (`all_the_same` fails on the empty
collection of units) instead of producing an aggregate datapoint. -/
theorem aggregate_pv_fallback_error (s p : Int)
    (pv_stats : List PhotovoltaicSummary)
    (h : (∀ pv ∈ pv_stats, pv.own_consumption = none) ∨
      (∀ pv ∈ pv_stats, pv.self_sufficiency = none)) :
    ∃ e, aggregate_pv s p pv_stats = Except.error e := by
  rcases h with h | h
  · have hemp : pv_stats.filterMap PhotovoltaicSummary.own_consumption = [] :=
      List.filterMap_eq_nil_iff.mpr h
    cases hc : all_the_same (pv_stats.map fun pv => pv.consumption.unit) with
    | error e => exact ⟨e, by simp [aggregate_pv, hc]⟩
    | ok cu =>
      cases hg : all_the_same (pv_stats.map fun pv => pv.generation.unit) with
      | error e => exact ⟨e, by simp [aggregate_pv, hc, hg]⟩
      | ok gu =>
        refine ⟨PyError.stopIteration "", ?_⟩
        have h0 : all_the_same ([] : List String) =
            Except.error (PyError.stopIteration "") := rfl
        simp [aggregate_pv, hc, hg, hemp, h0]
  · have hemp : pv_stats.filterMap PhotovoltaicSummary.self_sufficiency = [] :=
      List.filterMap_eq_nil_iff.mpr h
    cases hc : all_the_same (pv_stats.map fun pv => pv.consumption.unit) with
    | error e => exact ⟨e, by simp [aggregate_pv, hc]⟩
    | ok cu =>
      cases hg : all_the_same (pv_stats.map fun pv => pv.generation.unit) with
      | error e => exact ⟨e, by simp [aggregate_pv, hc, hg]⟩
      | ok gu =>
        cases ho : all_the_same
            ((pv_stats.filterMap PhotovoltaicSummary.own_consumption).map
              Quantity.unit) with
        | error e => exact ⟨e, by simp [aggregate_pv, hc, hg, ho]⟩
        | ok ou =>
          refine ⟨PyError.stopIteration "", ?_⟩
          have h0 : all_the_same ([] : List String) =
              Except.error (PyError.stopIteration "") := rfl
          simp [aggregate_pv, hc, hg, ho, hemp, h0]

/-- Witness for C10: a one-element hour group whose summary has both
optional quantities absent makes the fallback construction fail. -/
theorem aggregate_pv_fallback_error_witness :
    ∃ e, aggregate_pv 0 3600
        [(⟨0, 3600, ⟨1, "kWh"⟩, ⟨2, "kWh"⟩, none, none⟩ :
          PhotovoltaicSummary)] = Except.error e :=
  aggregate_pv_fallback_error 0 3600
    [⟨0, 3600, ⟨1, "kWh"⟩, ⟨2, "kWh"⟩, none, none⟩] (Or.inl (by decide))

end HaEnocoo
